import Mathlib

/-!
Verification of the content-generation pipeline of the AI PowerPoint
generator repository: the tolerant LLM-response parser, the resilient
retry invoker, the slide validation/structuring step, and the nested
bullet-level detector.  Python strings are modelled as `List Char`
(Python indexes by code point, as does `List Char`), Python dicts as
insertion-ordered association lists, JSON values by an inductive type,
raised exceptions by `Option`/`none`, and float progress fractions by
exact rationals.
-/

namespace P10

/-- Python strings, indexed by code point. -/
abbrev PyStr := List Char

/-- Coerce a Lean string literal to the Python string model. -/
def pyOf (s : String) : PyStr := s.data

/-- Python `str.strip()` whitespace set: space, tab, newline, carriage
return, vertical tab, form feed. -/
def isPyWS (c : Char) : Bool :=
  c = ' ' || c = '\t' || c = '\n' || c = '\r' || c = '\x0b' || c = '\x0c'

/-- Python `str.strip()`: drop leading and trailing whitespace. -/
def stripWS (s : PyStr) : PyStr :=
  ((s.dropWhile isPyWS).reverse.dropWhile isPyWS).reverse

/-- Boolean prefix test (`str.startswith`). -/
def pfx : PyStr → PyStr → Bool
  | [], _ => true
  | _ :: _, [] => false
  | a :: as, b :: bs => a = b && pfx as bs

/-- Index of the first occurrence of `sep` in `s` (leftmost match), as
used by Python `str.split` / the `in` operator. -/
def findSub : PyStr → PyStr → Option Nat
  | s, sep =>
    if pfx sep s then some 0
    else
      match s with
      | [] => none
      | _ :: t => (findSub t sep).map (· + 1)

/-- Python `sep in s` (substring containment). -/
def containsSub (s sep : PyStr) : Bool := (findSub s sep).isSome

/-- Worker for `splitOnSub`.  The fuel is always at least `s.length`;
since each step consumes at least one character (the separator is
nonempty wherever this is used), the fuel never runs out before the
scan finishes, so the base case is unreachable except on `s = []`,
where it agrees with the match below. -/
def splitOnAux (sep : PyStr) : Nat → PyStr → List PyStr
  | 0, s => [s]
  | fuel + 1, s =>
    match findSub s sep with
    | none => [s]
    | some i => s.take i :: splitOnAux sep fuel (s.drop (i + sep.length))

/-- Python `s.split(sep)` for a nonempty separator: leftmost,
non-overlapping occurrences. -/
def splitOnSub (s sep : PyStr) : List PyStr := splitOnAux sep s.length s

/-! ### The bullet nesting-level detector

Direct translation of the sub-bullet loop of
`create_content_slide` (`pptx_generator.py`, lines 116-128):

    level = 0
    clean_point = point.strip()
    while clean_point.startswith(('  ', '\t', '- ', '• ', '* ')):
        if clean_point.startswith(('  ', '\t')):
            level = min(level + 1, 2)
            clean_point = clean_point[2:] if clean_point.startswith('  ') else clean_point[1:]
        else:
            clean_point = clean_point[2:]
-/

/-- One `while` loop of the sub-bullet detector.  Fuel is the length of
the string; every iteration removes at least one character, and with
fuel `0` the string is empty so no prefix test can succeed — the base
case agrees with the loop exit. -/
def bulletLoop : Nat → PyStr → Nat → PyStr × Nat
  | 0, cp, level => (cp, level)
  | fuel + 1, cp, level =>
    if pfx (pyOf "  ") cp || pfx (pyOf "\t") cp || pfx (pyOf "- ") cp
        || pfx (pyOf "• ") cp || pfx (pyOf "* ") cp then
      if pfx (pyOf "  ") cp || pfx (pyOf "\t") cp then
        bulletLoop fuel
          (if pfx (pyOf "  ") cp then cp.drop 2 else cp.drop 1)
          (min (level + 1) 2)
      else
        bulletLoop fuel (cp.drop 2) level
    else (cp, level)

/-- Bullet text and nesting level computed by `create_content_slide`
for one raw content string: the point is first `strip()`ped, then the
marker loop runs. -/
def detect_bullet (point : PyStr) : PyStr × Nat :=
  bulletLoop (stripWS point).length (stripWS point) 0

/-! ### JSON values and `json.loads`

JSON values carry numbers as exact rationals (`json.loads` would
produce Python ints/floats; no claim depends on float rounding).
Objects are insertion-ordered association lists with unique keys, the
Python `dict` model; `json.loads` resolves duplicate keys by updating
in place (last value wins, first position kept), which `dictSet`
mirrors. -/

inductive JValue where
  | null
  | bool (b : Bool)
  | num (q : ℚ)
  | str (s : PyStr)
  | arr (xs : List JValue)
  | obj (d : List (PyStr × JValue))

/-- Python `d[k]` lookup (keys are unique by construction). -/
def dictGet (d : List (PyStr × JValue)) (k : PyStr) : Option JValue :=
  match d with
  | [] => none
  | (k', v) :: t => if k' = k then some v else dictGet t k

/-- Python `k in d`. -/
def dictHas (d : List (PyStr × JValue)) (k : PyStr) : Bool :=
  (dictGet d k).isSome

/-- Python `d[k] = v`: update in place if the key exists (keeping its
position), else append. -/
def dictSet (d : List (PyStr × JValue)) (k : PyStr) (v : JValue) :
    List (PyStr × JValue) :=
  match d with
  | [] => [(k, v)]
  | (k', v') :: t => if k' = k then (k', v) :: t else (k', v') :: dictSet t k v

/-- JSON whitespace (RFC 8259 / Python `json`): space, tab, newline,
carriage return. -/
def isJWS (c : Char) : Bool := c = ' ' || c = '\t' || c = '\n' || c = '\r'

def skipJWS : PyStr → PyStr
  | [] => []
  | c :: t => if isJWS c then skipJWS t else c :: t

def isDigit (c : Char) : Bool := '0' ≤ c && c ≤ '9'

def takeDigits : PyStr → PyStr × PyStr
  | [] => ([], [])
  | c :: t =>
    if isDigit c then
      let (ds, r) := takeDigits t
      (c :: ds, r)
    else ([], c :: t)

def digitsToNat (ds : PyStr) : Nat :=
  ds.foldl (fun acc c => acc * 10 + (c.toNat - '0'.toNat)) 0

def hexVal (c : Char) : Option Nat :=
  if '0' ≤ c ∧ c ≤ '9' then some (c.toNat - '0'.toNat)
  else if 'a' ≤ c ∧ c ≤ 'f' then some (c.toNat - 'a'.toNat + 10)
  else if 'A' ≤ c ∧ c ≤ 'F' then some (c.toNat - 'A'.toNat + 10)
  else none

/-- Decode a two-character JSON escape (`\n`, `\"`, ...); `none` on an
invalid escape, as Python `json` raises. -/
def escChar (c : Char) : Option Char :=
  if c = '"' then some '"'
  else if c = '\\' then some '\\'
  else if c = '/' then some '/'
  else if c = 'b' then some '\x08'
  else if c = 'f' then some '\x0c'
  else if c = 'n' then some '\n'
  else if c = 'r' then some '\r'
  else if c = 't' then some '\t'
  else none

/-- Parse the body of a JSON string after the opening quote, returning
the decoded content and the remainder after the closing quote.  Raw
control characters are rejected (Python `json` strict mode); `\uXXXX`
escapes decode to the named code point (surrogate halves, which Lean
`Char` cannot carry, are rejected — no claim involves them). -/
def parseJString : PyStr → Option (PyStr × PyStr)
  | [] => none
  | '"' :: rest => some ([], rest)
  | '\\' :: 'u' :: a :: b :: c :: d :: rest => do
    let ha ← hexVal a
    let hb ← hexVal b
    let hc ← hexVal c
    let hd ← hexVal d
    let n := ((ha * 16 + hb) * 16 + hc) * 16 + hd
    if h : n.isValidChar then
      let (s, r) ← parseJString rest
      pure (Char.ofNatAux n h :: s, r)
    else none
  | '\\' :: e :: rest => do
    let ch ← escChar e
    let (s, r) ← parseJString rest
    pure (ch :: s, r)
  | c :: rest =>
    if c.toNat < 0x20 then none
    else do
      let (s, r) ← parseJString rest
      pure (c :: s, r)

/-- Parse a JSON number literal: `-? (0 | [1-9][0-9]*) frac? exp?`,
evaluated exactly in `ℚ`. -/
def parseNumber (s : PyStr) : Option (ℚ × PyStr) := do
  let (sign, s1) : ℚ × PyStr :=
    match s with
    | '-' :: t => (-1, t)
    | _ => (1, s)
  let (ids, s2) := takeDigits s1
  if ids.isEmpty then none
  else if ids.head? = some '0' ∧ ids.length > 1 then none
  else
    let intPart : ℚ := (digitsToNat ids : ℚ)
    let (fracPart, s3) : ℚ × PyStr :=
      match s2 with
      | '.' :: t =>
        let (fds, r) := takeDigits t
        ((digitsToNat fds : ℚ) / (10 : ℚ) ^ fds.length, r)
      | _ => (0, s2)
    -- Python json requires at least one digit after '.'
    if (match s2 with | '.' :: t => (takeDigits t).1.isEmpty | _ => false) then none
    else
      match s3 with
      | e :: t =>
        if e = 'e' ∨ e = 'E' then
          let (esign, t1) : Int × PyStr :=
            match t with
            | '+' :: t' => (1, t')
            | '-' :: t' => (-1, t')
            | _ => (1, t)
          let (eds, t2) := takeDigits t1
          if eds.isEmpty then none
          else pure (sign * (intPart + fracPart) * (10 : ℚ) ^ (esign * (digitsToNat eds : Int)), t2)
        else pure (sign * (intPart + fracPart), s3)
      | [] => pure (sign * (intPart + fracPart), [])

mutual

/-- Recursive-descent JSON value parser.  Fuel-indexed for totality;
`jsonLoads` supplies fuel `2 * length + 2`, which cannot run out on a
parse that Python `json.loads` accepts: every two fuel decrements
consume at least one input character. -/
def parseValue : Nat → PyStr → Option (JValue × PyStr)
  | 0, _ => none
  | fuel + 1, s =>
    match skipJWS s with
    | '{' :: rest => parseMembers fuel (skipJWS rest) [] true
    | '[' :: rest => parseItems fuel (skipJWS rest) [] true
    | '"' :: rest => (parseJString rest).map fun (cs, r) => (.str cs, r)
    | 't' :: 'r' :: 'u' :: 'e' :: rest => some (.bool true, rest)
    | 'f' :: 'a' :: 'l' :: 's' :: 'e' :: rest => some (.bool false, rest)
    | 'n' :: 'u' :: 'l' :: 'l' :: rest => some (.null, rest)
    | s' => (parseNumber s').map fun (q, r) => (.num q, r)

/-- Parse `{...}` members after the opening brace (whitespace already
skipped); `first` is true before any member has been read, so that
`{}` is accepted but a trailing comma is not. -/
def parseMembers : Nat → PyStr → List (PyStr × JValue) → Bool →
    Option (JValue × PyStr)
  | 0, _, _, _ => none
  | fuel + 1, s, acc, first =>
    match s with
    | '}' :: rest => if first then some (.obj acc, rest) else none
    | '"' :: rest => do
      let (k, r1) ← parseJString rest
      match skipJWS r1 with
      | ':' :: r2 => do
        let (v, r3) ← parseValue fuel r2
        match skipJWS r3 with
        | ',' :: r4 => parseMembers fuel (skipJWS r4) (dictSet acc k v) false
        | '}' :: r4 => some (.obj (dictSet acc k v), r4)
        | _ => none
      | _ => none
    | _ => none

/-- Parse `[...]` items after the opening bracket (whitespace already
skipped). -/
def parseItems : Nat → PyStr → List JValue → Bool → Option (JValue × PyStr)
  | 0, _, _, _ => none
  | fuel + 1, s, acc, first =>
    match s with
    | ']' :: rest => if first then some (.arr acc.reverse, rest) else none
    | _ => do
      let (v, r1) ← parseValue fuel s
      match skipJWS r1 with
      | ',' :: r2 => parseItems fuel (skipJWS r2) (v :: acc) false
      | ']' :: r2 => some (.arr (v :: acc).reverse, r2)
      | _ => none

end

/-- Python `json.loads`: parse one JSON document and require only
whitespace after it; `none` models a raised `json.JSONDecodeError`. -/
def jsonLoads (s : PyStr) : Option JValue :=
  match parseValue (2 * s.length + 2) s with
  | some (v, rest) => if (skipJWS rest).isEmpty then some v else none
  | none => none

/-- Python truthiness (`bool(v)`) of a JSON-shaped value. -/
def pyTruthy : JValue → Bool
  | .null => false
  | .bool b => b
  | .num q => decide (q ≠ 0)
  | .str s => !s.isEmpty
  | .arr xs => !xs.isEmpty
  | .obj d => !d.isEmpty

/-- Python `v == lit` for a string literal `lit`: true only for an
equal string (a non-string value never equals a `str`). -/
def jIsStr (v : JValue) (lit : String) : Bool :=
  match v with
  | .str s => s = pyOf lit
  | _ => false

/-! ### The LLM response parser (`llm_client.parse_llm_response`) -/

/-- The markdown-fence extraction of `parse_llm_response` (lines
99-105): prefer the interior after a ` ```json ` tag, else the first
plain-fence interior. -/
def cleanFences (cleaned : PyStr) : PyStr :=
  if containsSub cleaned (pyOf "```json") then
    ((splitOnSub cleaned (pyOf "```json")).getD 1 []
      |> fun a => (splitOnSub a (pyOf "```")).getD 0 [])
  else if containsSub cleaned (pyOf "```") then
    let parts := splitOnSub cleaned (pyOf "```")
    if parts.length ≥ 2 then parts.getD 1 [] else cleaned
  else cleaned

/-- The greedy match of `re.search(r'\x7b[\s\S]*\x7d', text)`: from the
first opening brace through the last closing brace strictly after it;
`none` when no such span exists. -/
def braceSpan (s : PyStr) : Option PyStr :=
  match s.dropWhile (fun c => !(c = '{')) with
  | [] => none
  | c :: rest =>
    let revTail := rest.reverse.dropWhile (fun c => !(c = '}'))
    if revTail.isEmpty then none
    else some (c :: revTail.reverse)

/-- `parse_llm_response` (llm_client.py, lines 92-133).  `none` models
a raised `ValueError`: either the final parse failure, or the schema
`ValueError("Response is not a JSON object")`, which the
`except json.JSONDecodeError` clause does not catch, so the `\x7b...\x7d`
fallback is not attempted for it.  The fallback path (searching the
original text) returns the extracted object verbatim, with no
`title`/`slides` backfill. -/
def parse_llm_response (response_text : PyStr) : Option JValue :=
  let cleaned := stripWS response_text
  let cleaned := stripWS (cleanFences cleaned)
  match jsonLoads cleaned with
  | some data =>
    match data with
    | .obj d =>
      let d := if !dictHas d (pyOf "slides") then dictSet d (pyOf "slides") (.arr []) else d
      let d := if !dictHas d (pyOf "title") then
                 dictSet d (pyOf "title") (.str (pyOf "Generated Presentation"))
               else d
      some (.obj d)
    | _ => none
  | none =>
    match braceSpan response_text with
    | some span => jsonLoads span
    | none => none

/-! ### The resilient invoker (`llm_client.generate_presentation_content`)

The backend (`client.chat.completions.create`) is modelled as a
function from the call index to its outcome: a raw response text, or
one of the three caught API exception kinds.  One invocation is
modelled as the ordered trace of its observable events — progress
callbacks, backend calls, sleeps — together with its outcome (`none`
models the terminal `ValueError` after the loop).  Configured
constants: `RETRY_ATTEMPTS = 3`, `RETRY_DELAY = 2` (config.py). -/

def RETRY_ATTEMPTS : Nat := 3

def RETRY_DELAY : ℚ := 2

inductive ErrKind where
  | rateLimit
  | apiConnection
  | apiError
deriving DecidableEq

inductive BackendResult where
  | ok (text : PyStr)
  | err (e : ErrKind)

inductive Event where
  | progress (p : ℚ)
  | call
  | sleep (d : ℚ)
deriving DecidableEq

/-- The retry loop of `generate_presentation_content` (lines 159-213),
from loop counter `attempt` with `remaining` iterations left (the full
run uses `attempt = 0`, `remaining = maxA`).  Each iteration: report
progress `attempt / maxA * 0.3`, call the backend; on a response,
report `0.8`, parse, and on parse success report `1.0` and return; a
parse `ValueError` sleeps `delay` when attempts remain; a rate-limit
error sleeps `delay * (attempt + 1)` unconditionally; connection and
other API errors sleep `delay` when attempts remain. -/
def genFrom (maxA : Nat) (delay : ℚ) (backend : Nat → BackendResult) :
    Nat → Nat → List Event × Option JValue
  | _, 0 => ([], none)
  | attempt, r + 1 =>
    let pre : List Event := [.progress ((attempt : ℚ) / (maxA : ℚ) * (3 / 10))]
    match backend attempt with
    | .ok text =>
      match parse_llm_response text with
      | some data => (pre ++ [.call, .progress (8 / 10), .progress 1], some data)
      | none =>
        let sl : List Event := if attempt < maxA - 1 then [.sleep delay] else []
        let rest := genFrom maxA delay backend (attempt + 1) r
        (pre ++ [.call, .progress (8 / 10)] ++ sl ++ rest.1, rest.2)
    | .err .rateLimit =>
      let rest := genFrom maxA delay backend (attempt + 1) r
      (pre ++ [.call, .sleep (delay * ((attempt : ℚ) + 1))] ++ rest.1, rest.2)
    | .err .apiConnection =>
      let sl : List Event := if attempt < maxA - 1 then [.sleep delay] else []
      let rest := genFrom maxA delay backend (attempt + 1) r
      (pre ++ [.call] ++ sl ++ rest.1, rest.2)
    | .err .apiError =>
      let sl : List Event := if attempt < maxA - 1 then [.sleep delay] else []
      let rest := genFrom maxA delay backend (attempt + 1) r
      (pre ++ [.call] ++ sl ++ rest.1, rest.2)

/-- One full invocation of `generate_presentation_content` with retry
policy `(maxA, delay)` against `backend`. -/
def generate_presentation_content (maxA : Nat) (delay : ℚ)
    (backend : Nat → BackendResult) : List Event × Option JValue :=
  genFrom maxA delay backend 0 maxA

/-- Number of backend calls recorded in a trace. -/
def countCalls (tr : List Event) : Nat :=
  tr.countP fun e => match e with | .call => true | _ => false

/-- The sleeps of a trace, in order. -/
def sleepsOf (tr : List Event) : List ℚ :=
  tr.filterMap fun e => match e with | .sleep d => some d | _ => none

/-- The progress values reported along a trace, in order. -/
def progressOf (tr : List Event) : List ℚ :=
  tr.filterMap fun e => match e with | .progress p => some p | _ => none

/-! ### Slide validation (`pptx_generator.validate_presentation_data`)
and the content-slide dispatch of `generate_pptx` -/

/-- Python iteration (`for x in v`): lists yield elements, strings
yield one-character strings, dicts yield their keys in order; other
values raise `TypeError` (`none`). -/
def pyIter : JValue → Option (List JValue)
  | .arr xs => some xs
  | .str s => some (s.map fun c => .str [c])
  | .obj d => some (d.map fun kv => .str kv.1)
  | _ => none

/-- The content filter `c and str(c).strip()` (lines 339-342).  For a
string the test is "nonempty after stripping" (a string failing the
truthiness test is empty, hence also strips to empty).  For every
non-string value, `str(c)` (such as `"0"`, `"[]"`, `"None"`,
`"False"`) is never whitespace-only, so the test reduces to Python
truthiness. -/
def keepContent (c : JValue) : Bool :=
  match c with
  | .str s => !(stripWS s).isEmpty
  | v => pyTruthy v

/-- The declared slide type with its default
(`slide.get('type', 'content')`). -/
def slideType (s : List (PyStr × JValue)) : JValue :=
  (dictGet s (pyOf "type")).getD (.str (pyOf "content"))

/-- The string-to-singleton-list normalization applied to a slide's
raw `content` field (lines 335-336). -/
def wrapContent : JValue → JValue
  | .str cs => .arr [.str cs]
  | c => c

/-- The iterated raw content entries of a slide record, after the
string wrap (`none` on a `TypeError`). -/
def slideContentItems (s : List (PyStr × JValue)) : Option (List JValue) :=
  pyIter (wrapContent ((dictGet s (pyOf "content")).getD (.arr [])))

/-- The cleaned slide built for a kept slide: the literal dict
`{title, content, notes, type}` with the slide's defaults (lines
327-332), `content` replaced by the filtered list. -/
def cleanedRecord (s : List (PyStr × JValue)) (cleaned : List JValue) : JValue :=
  .obj [(pyOf "title", (dictGet s (pyOf "title")).getD (.str (pyOf "Untitled Slide"))),
        (pyOf "content", .arr cleaned),
        (pyOf "notes", (dictGet s (pyOf "notes")).getD (.str (pyOf ""))),
        (pyOf "type", slideType s)]

/-- The loop body of `validate_presentation_data` for one raw slide
record (lines 323-345).  `none` is a raised `TypeError` (iterating a
non-iterable `content`); `some none` means the slide is skipped or
dropped; `some (some c)` is the cleaned slide appended to the output.
The cleaned slide is the literal dict
`{title, content, notes, type}` in that key order. -/
def cleanOne (slide : JValue) : Option (Option JValue) :=
  match slide with
  | .obj s =>
    match pyIter (wrapContent ((dictGet s (pyOf "content")).getD (.arr []))) with
    | none => none
    | some items =>
      let cleaned := items.filter keepContent
      if !cleaned.isEmpty || jIsStr (slideType s) "section" then
        some (some (cleanedRecord s cleaned))
      else some none
  | _ => some none

/-- The slide loop of `validate_presentation_data`: clean each slide
in order, skipping/dropping as `cleanOne` says; a `TypeError` anywhere
aborts the whole call. -/
def cleanSlides : List JValue → Option (List JValue)
  | [] => some []
  | s :: t =>
    match cleanOne s with
    | none => none
    | some none => cleanSlides t
    | some (some c) => (cleanSlides t).map fun cs => c :: cs

/-- The `title` backfill of `validate_presentation_data` (lines
315-316): a missing or falsy `title` is replaced. -/
def titleStep (d : List (PyStr × JValue)) : List (PyStr × JValue) :=
  if !dictHas d (pyOf "title") || !pyTruthy ((dictGet d (pyOf "title")).getD .null)
  then dictSet d (pyOf "title") (.str (pyOf "Untitled Presentation")) else d

/-- The `slides` backfill of `validate_presentation_data` (lines
318-319): a missing `slides` becomes the empty list. -/
def slidesStep (d : List (PyStr × JValue)) : List (PyStr × JValue) :=
  if !dictHas d (pyOf "slides") then dictSet d (pyOf "slides") (.arr []) else d

/-- `validate_presentation_data` (lines 309-348): require a dict,
backfill a falsy/missing `title` and a missing `slides`, then replace
`slides` with the cleaned list.  `none` models a raised error
(`ValueError` on a non-dict, or `TypeError` from iteration). -/
def validate_presentation_data (data : JValue) : Option JValue :=
  match data with
  | .obj d0 =>
    let d := slidesStep (titleStep d0)
    match dictGet d (pyOf "slides") with
    | none => none
    | some sv =>
      match pyIter sv with
      | none => none
      | some items =>
        match cleanSlides items with
        | none => none
        | some cs => some (.obj (dictSet d (pyOf "slides") (.arr cs)))
  | _ => none

/-- `slide_data.get(k, default)` on a validated slide (validated
slides are always dicts; on a non-dict the default is returned). -/
def pyGetD (v : JValue) (k : String) (dflt : JValue) : JValue :=
  match v with
  | .obj d => (dictGet d (pyOf k)).getD dflt
  | _ => dflt

/-- Python `k in slide_data` for a slide record. -/
def pyHas (v : JValue) (k : String) : Bool :=
  match v with
  | .obj d => dictHas d (pyOf k)
  | _ => false

/-- What the content-slide loop of `generate_pptx` builds for one
slide: a section header, a two-column comparison, or a standard
bulleted content slide. -/
inductive Rendered where
  | sectionSlide (title : JValue)
  | twoColumn (title lft rgt ltitle rtitle : JValue)
  | contentSlide (title content notes : JValue)

def Rendered.isTwoColumn : Rendered → Bool
  | .twoColumn .. => true
  | _ => false

/-- The dispatch of the slide loop of `generate_pptx` (lines 389-408):
`section` slides become section headers; `comparison` slides become
two-column slides only when both `left` and `right` keys are present;
everything else becomes a content slide built from the `content`
field. -/
def renderSlide (slide : JValue) : Rendered :=
  let ty := pyGetD slide "type" (.str (pyOf "content"))
  let title := pyGetD slide "title" (.str (pyOf "Untitled Slide"))
  let content := pyGetD slide "content" (.arr [])
  let notes := pyGetD slide "notes" (.str (pyOf ""))
  if jIsStr ty "section" then .sectionSlide title
  else if jIsStr ty "comparison" && pyHas slide "left" && pyHas slide "right" then
    .twoColumn title (pyGetD slide "left" (.arr [])) (pyGetD slide "right" (.arr []))
      (pyGetD slide "left_title" (.str (pyOf ""))) (pyGetD slide "right_title" (.str (pyOf "")))
  else .contentSlide title content notes

/-- The slide list of a validated presentation (`data.get('slides', [])`,
an array after validation). -/
def slidesOf (v : JValue) : List JValue :=
  match pyGetD v "slides" (.arr []) with
  | .arr xs => xs
  | _ => []

/-- The content-slide pipeline of `generate_pptx` (lines 351-408):
validate the data, then dispatch each retained slide in order.  The
fixed leading title slide, the closing thank-you slide and the file
serialization are outside the modelled core. -/
def generate_pptx_slides (data : JValue) : Option (List Rendered) :=
  match validate_presentation_data data with
  | none => none
  | some vd => some ((slidesOf vd).map renderSlide)

/-- The key list of a slide record (empty for non-dicts). -/
def keysOf (v : JValue) : List PyStr :=
  match v with
  | .obj d => d.map Prod.fst
  | _ => []

/-- Whether a parsed value is object-shaped (`isinstance(data, dict)`). -/
def JValue.isObj : JValue → Bool
  | .obj _ => true
  | _ => false

/-! ### Mock backends used in concrete runs -/

/-- A backend that fails with a retryable (rate-limit) error on every
call before the last allowed one and then returns `good`. -/
def failThenOk (maxA : Nat) (good : PyStr) : Nat → BackendResult :=
  fun i => if i + 1 < maxA then .err .rateLimit else .ok good

/-- A mock backend whose first two calls fail with connection errors
and whose third returns the empty JSON object. -/
def connTwice : Nat → BackendResult :=
  fun i => if i < 2 then .err .apiConnection else .ok (pyOf "\x7b\x7d")

/-- A mock backend whose first call returns unparseable prose and
whose later calls return the empty JSON object. -/
def parseFailThenOk : Nat → BackendResult :=
  fun i => if i = 0 then .ok (pyOf "hello") else .ok (pyOf "\x7b\x7d")

/-- A mock backend whose first call returns valid JSON that is not an
object (a schema error) and whose later calls return the empty JSON
object. -/
def schemaThenOk : Nat → BackendResult :=
  fun i => if i = 0 then .ok (pyOf "[]") else .ok (pyOf "\x7b\x7d")

/-- A backend that always returns the empty JSON object. -/
def okAlways : Nat → BackendResult :=
  fun _ => .ok (pyOf "\x7b\x7d")

/-! ### Concrete slide records used in concrete runs -/

/-- A comparison slide with `left` but no `right`, and content `["a"]`. -/
def cmpNoRight : List (PyStr × JValue) :=
  [(pyOf "type", .str (pyOf "comparison")), (pyOf "left", .arr [.str (pyOf "l")]),
   (pyOf "content", .arr [.str (pyOf "a")])]

/-- A section slide with no content. -/
def secOnly : JValue :=
  .obj [(pyOf "type", .str (pyOf "section")), (pyOf "title", .str (pyOf "Sec"))]

/-- A default-typed slide with no content. -/
def emptySlide : JValue := .obj [(pyOf "title", .str (pyOf "E"))]

/-- A presentation holding one empty section slide and one empty
content slide. -/
def demoData : JValue := .obj [(pyOf "slides", .arr [secOnly, emptySlide])]

/-- A comparison slide carrying `left`, `right` and `content`. -/
def cmpFull : JValue :=
  .obj [(pyOf "type", .str (pyOf "comparison")), (pyOf "left", .arr [.str (pyOf "l")]),
        (pyOf "right", .arr [.str (pyOf "r")]), (pyOf "content", .arr [.str (pyOf "c")])]

/-- A presentation holding one full comparison slide. -/
def demoData2 : JValue := .obj [(pyOf "slides", .arr [cmpFull])]

/-- The validated form of `demoData`: only the section slide is kept. -/
def demoOut : JValue :=
  .obj [(pyOf "slides", .arr [.obj [(pyOf "title", .str (pyOf "Sec")),
          (pyOf "content", .arr []), (pyOf "notes", .str (pyOf "")),
          (pyOf "type", .str (pyOf "section"))]]),
        (pyOf "title", .str (pyOf "Untitled Presentation"))]

/-- The validated form of `demoData2`: the comparison slide is kept
with only the four canonical keys. -/
def demo2Out : JValue :=
  .obj [(pyOf "slides", .arr [.obj [(pyOf "title", .str (pyOf "Untitled Slide")),
          (pyOf "content", .arr [.str (pyOf "c")]), (pyOf "notes", .str (pyOf "")),
          (pyOf "type", .str (pyOf "comparison"))]]),
        (pyOf "title", .str (pyOf "Untitled Presentation"))]

/-! ### Dictionary lemmas -/

theorem dictGet_dictSet_self (d : List (PyStr × JValue)) (k : PyStr) (v : JValue) :
    dictGet (dictSet d k v) k = some v := by
  induction d with
  | nil => simp [dictSet, dictGet]
  | cons h t ih =>
    by_cases hk : h.1 = k
    · simp [dictSet, dictGet, hk]
    · simp [dictSet, dictGet, hk, ih]

theorem dictGet_dictSet_ne (d : List (PyStr × JValue)) (k k' : PyStr) (v : JValue)
    (h : k ≠ k') : dictGet (dictSet d k v) k' = dictGet d k' := by
  induction d with
  | nil => simp [dictSet, dictGet, h]
  | cons hd t ih =>
    by_cases hk : hd.1 = k
    · simp [dictSet, dictGet, hk, h]
    · simp [dictSet, dictGet, hk, ih]

theorem dictHas_dictSet_self (d : List (PyStr × JValue)) (k : PyStr) (v : JValue) :
    dictHas (dictSet d k v) k = true := by
  simp [dictHas, dictGet_dictSet_self]

theorem dictHas_dictSet_ne (d : List (PyStr × JValue)) (k k' : PyStr) (v : JValue)
    (h : k ≠ k') : dictHas (dictSet d k v) k' = dictHas d k' := by
  simp [dictHas, dictGet_dictSet_ne _ _ _ _ h]

/-! ### C1 — bullet nesting-level detection

The claim (and spec §8) says `"  - sub point"` parses to level 1 and
`"\t\t- deep"` to level 2.  The code first runs `point.strip()`, which
removes all leading whitespace, so leading indentation can never
contribute to the level: both inputs come out at level 0.  The repo's
own prompt instructs the model to mark sub-points with a leading
`"  - "`, and the loop's indentation branch is written to count it, so
the claim matches the intent and the initial `strip()` defeats it:
this is a code bug, witnessed by the evaluation below. -/

/-- C1: evaluating the code at the claim's three example inputs.  The
second agrees with the claim (level 0), but the indented inputs both
produce level 0 where the claim requires levels 1 and 2: leading
indentation is destroyed by `point.strip()` before the level loop. -/
theorem claim1_bullet_levels_eval :
    detect_bullet (pyOf "  - sub point") = (pyOf "sub point", 0) ∧
    detect_bullet (pyOf "- top") = (pyOf "top", 0) ∧
    detect_bullet (pyOf "\t\t- deep") = (pyOf "deep", 0) := by
  exact ⟨rfl, rfl, rfl⟩

/-! ### C2 — JSON recovery from prose and fences -/

/-- C2: the parser recovers the JSON object in both spec examples: the
fenced reply yields `{title: "T", slides: []}`, and the fenceless
reply with an embedded object yields that object. -/
theorem claim2_parse_examples :
    parse_llm_response
        (pyOf "Here is the result:\n```\n\x7b\"title\":\"T\",\"slides\":[]\x7d\n```\nThanks")
      = some (.obj [(pyOf "title", .str (pyOf "T")), (pyOf "slides", .arr [])]) ∧
    parse_llm_response
        (pyOf "Sure! \x7b\"title\":\"X\",\"slides\":[\x7b\"title\":\"S1\",\"content\":[\"a\"]\x7d]\x7d Hope that helps.")
      = some (.obj [(pyOf "title", .str (pyOf "X")),
          (pyOf "slides", .arr [.obj [(pyOf "title", .str (pyOf "S1")),
            (pyOf "content", .arr [.str (pyOf "a")])]])]) := by
  exact ⟨rfl, rfl⟩

/-! ### C3 — presence of `title` and `slides` in parser output

False as stated: the fallback path (balanced-brace search over the
original text) returns the extracted object verbatim, with no
backfill, so its output can lack both keys.  Only the primary parse
path backfills. -/

/-- C3 counterexample: on `"x {"a": "b"}"` the primary parse fails,
the fallback extracts `{"a": "b"}`, and the parser returns it with
neither `title` nor `slides`. -/
theorem claim3_counterexample :
    parse_llm_response (pyOf "x \x7b\"a\": \"b\"\x7d")
        = some (.obj [(pyOf "a", .str (pyOf "b"))]) ∧
    dictHas [(pyOf "a", JValue.str (pyOf "b"))] (pyOf "title") = false ∧
    dictHas [(pyOf "a", JValue.str (pyOf "b"))] (pyOf "slides") = false := by
  exact ⟨rfl, rfl, rfl⟩

/-- C3 amended: whenever the parser succeeds on the primary path (the
fence-cleaned text parses as a JSON object), the returned object
contains both `title` and `slides`, backfilled when missing.  The
fallback path returns the embedded object verbatim and may lack
either. -/
theorem claim3_amended_primary_backfill (txt : PyStr) (d : List (PyStr × JValue))
    (h : jsonLoads (stripWS (cleanFences (stripWS txt))) = some (.obj d)) :
    ∃ d', parse_llm_response txt = some (.obj d') ∧
      dictHas d' (pyOf "title") = true ∧ dictHas d' (pyOf "slides") = true := by
  have hts : pyOf "title" ≠ pyOf "slides" := by decide
  simp only [parse_llm_response, h]
  by_cases h1 : dictHas d (pyOf "slides") <;> by_cases h2 : dictHas d (pyOf "title") <;>
    refine ⟨_, rfl, ?_, ?_⟩ <;>
    simp [h1, h2, dictHas_dictSet_self, dictHas_dictSet_ne _ _ _ _ hts,
      dictHas_dictSet_ne _ _ _ _ hts.symm]

/-- C3 amended, witness: the bare object `{}` takes the primary path
and both keys are backfilled. -/
theorem claim3_amended_witness :
    ∃ d', parse_llm_response (pyOf "\x7b\x7d") = some (.obj d') ∧
      dictHas d' (pyOf "title") = true ∧ dictHas d' (pyOf "slides") = true :=
  claim3_amended_primary_backfill (pyOf "\x7b\x7d") [] rfl

/-! ### C4 — retry attempts bounded by `maxAttempts` -/

/-- Each loop iteration makes exactly one backend call, so a run from
`remaining = r` iterations makes at most `r` calls. -/
theorem countCalls_genFrom (maxA : Nat) (delay : ℚ) (backend : Nat → BackendResult) :
    ∀ r a, countCalls (genFrom maxA delay backend a r).1 ≤ r := by
  intro r
  induction r with
  | zero => intro a; simp [genFrom, countCalls]
  | succ n ih =>
    intro a
    have hrest := ih (a + 1)
    simp only [countCalls] at hrest ⊢
    cases hb : backend a with
    | ok text =>
      cases hp : parse_llm_response text with
      | some d =>
        simp [genFrom, hb, hp, List.countP_append, List.countP_cons]
      | none =>
        by_cases hlt : a < maxA - 1 <;>
          simp [genFrom, hb, hp, hlt, List.countP_append, List.countP_cons] <;> omega
    | err e =>
      cases e <;> by_cases hlt : a < maxA - 1 <;>
        simp [genFrom, hb, hlt, List.countP_append, List.countP_cons] <;> omega

/-- C4: (a) for every backend and retry policy, one invocation makes
at most `maxAttempts` backend calls; (b) at the configured policy
(`RETRY_ATTEMPTS = 3`), against a backend failing with a retryable
error on the first two calls and succeeding on the third, the invoker
returns the parsed result having made exactly `RETRY_ATTEMPTS`
calls. -/
theorem claim4_retry_bound :
    (∀ (maxA : Nat) (delay : ℚ) (backend : Nat → BackendResult),
      countCalls (generate_presentation_content maxA delay backend).1 ≤ maxA) ∧
    countCalls (generate_presentation_content RETRY_ATTEMPTS RETRY_DELAY
        (failThenOk RETRY_ATTEMPTS (pyOf "\x7b\x7d"))).1 = RETRY_ATTEMPTS ∧
    (generate_presentation_content RETRY_ATTEMPTS RETRY_DELAY
        (failThenOk RETRY_ATTEMPTS (pyOf "\x7b\x7d"))).2
      = some (.obj [(pyOf "slides", .arr []),
          (pyOf "title", .str (pyOf "Generated Presentation"))]) := by
  refine ⟨fun maxA delay backend => countCalls_genFrom maxA delay backend maxA 0,
    by decide, rfl⟩

/-! ### C5 — linear backoff

False as stated: only the rate-limit handler backs off linearly with
`RETRY_DELAY * (attempt + 1)`; the connection-error, API-error and
parse-error handlers all sleep the constant `RETRY_DELAY`. -/

/-- C5 counterexample: with connection failures on attempts 0 and 1,
the performed sleeps are `[2, 2]`, not the claimed linear backoff
`[RETRY_DELAY * 1, RETRY_DELAY * 2] = [2, 4]`. -/
theorem claim5_counterexample :
    sleepsOf (generate_presentation_content RETRY_ATTEMPTS RETRY_DELAY connTwice).1
      = [2, 2] ∧
    ([2, 2] : List ℚ) ≠ [RETRY_DELAY * (0 + 1), RETRY_DELAY * (1 + 1)] := by
  refine ⟨by decide, ?_⟩
  simp only [RETRY_DELAY, ne_eq, List.cons.injEq, and_true, not_and]
  norm_num

/-- C5 amended: the sleep performed after a retryable failure at
attempt index `a` is `delay * (a + 1)` for a rate-limit error (even on
the final attempt), and the constant `delay` for a connection error,
another API error, or a downstream parse failure (when attempts
remain). -/
theorem claim5_amended (maxA : Nat) (delay : ℚ) (backend : Nat → BackendResult)
    (a r : Nat) :
    (backend a = .err .rateLimit →
      (genFrom maxA delay backend a (r + 1)).1
        = [.progress ((a : ℚ) / (maxA : ℚ) * (3 / 10)), .call,
            .sleep (delay * ((a : ℚ) + 1))]
          ++ (genFrom maxA delay backend (a + 1) r).1) ∧
    (a < maxA - 1 → backend a = .err .apiConnection →
      (genFrom maxA delay backend a (r + 1)).1
        = [.progress ((a : ℚ) / (maxA : ℚ) * (3 / 10)), .call, .sleep delay]
          ++ (genFrom maxA delay backend (a + 1) r).1) ∧
    (a < maxA - 1 → backend a = .err .apiError →
      (genFrom maxA delay backend a (r + 1)).1
        = [.progress ((a : ℚ) / (maxA : ℚ) * (3 / 10)), .call, .sleep delay]
          ++ (genFrom maxA delay backend (a + 1) r).1) ∧
    (∀ t, a < maxA - 1 → backend a = .ok t → parse_llm_response t = none →
      (genFrom maxA delay backend a (r + 1)).1
        = [.progress ((a : ℚ) / (maxA : ℚ) * (3 / 10)), .call, .progress (8 / 10),
            .sleep delay]
          ++ (genFrom maxA delay backend (a + 1) r).1) := by
  refine ⟨fun hb => ?_, fun ha hb => ?_, fun ha hb => ?_, fun t ha hb hp => ?_⟩ <;>
    simp [genFrom, *]

/-- C5 amended, witness: the first sleep of the connection-failure run
is the constant `RETRY_DELAY`. -/
theorem claim5_amended_witness :
    (genFrom 3 2 connTwice 0 3).1
      = [.progress ((0 : ℚ) / (3 : ℚ) * (3 / 10)), .call, .sleep 2]
        ++ (genFrom 3 2 connTwice 1 2).1 :=
  (claim5_amended 3 2 connTwice 0 2).2.1 (by decide) rfl

/-! ### C6 — monotone progress

False as stated: when a backend call returns a response whose parse
then fails (a retryable failure pattern), `0.8` has already been
reported, and the next attempt starts by reporting
`attempt / maxAttempts * 0.3 < 0.8` — the sequence decreases. -/

/-- C6 counterexample: a run whose first response is unparseable
reports `[0, 0.8, 0.1, 0.8, 1]`, which is not non-decreasing
(`0.8 > 0.1`). -/
theorem claim6_counterexample :
    progressOf (generate_presentation_content RETRY_ATTEMPTS RETRY_DELAY
        parseFailThenOk).1 = [0, 4 / 5, 1 / 10, 4 / 5, 1] ∧
    ¬ List.Chain' (· ≤ ·) ([0, 4 / 5, 1 / 10, 4 / 5, 1] : List ℚ) := by
  constructor
  · have h1 : parse_llm_response (pyOf "hello") = none := rfl
    have h2 : parse_llm_response (pyOf "\x7b\x7d")
        = some (.obj [(pyOf "slides", .arr []),
            (pyOf "title", .str (pyOf "Generated Presentation"))]) := rfl
    simp [generate_presentation_content, genFrom, parseFailThenOk, progressOf,
      RETRY_ATTEMPTS, RETRY_DELAY, h1, h2]
    norm_num
  · intro h
    have h3 := (List.chain'_cons.mp (List.chain'_cons.mp h).2).1
    norm_num at h3

/-- Lower-bounded chain invariant for the progress reports of a tail
of the retry loop: prepending the current attempt's fraction keeps the
report sequence non-decreasing, provided every received response
parses. -/
theorem claim6_aux (maxA : Nat) (delay : ℚ) (backend : Nat → BackendResult)
    (hok : ∀ i t, backend i = .ok t → (parse_llm_response t).isSome) :
    ∀ r a, a + r ≤ maxA →
      List.Chain' (· ≤ ·)
        (((a : ℚ) / (maxA : ℚ) * (3 / 10)) ::
          progressOf (genFrom maxA delay backend a r).1) := by
  intro r
  induction r with
  | zero => intro a _; simp [genFrom, progressOf]
  | succ n ih =>
    intro a ha
    have hmaxA : 0 < maxA := by omega
    have hmaxQ : (0 : ℚ) < (maxA : ℚ) := by exact_mod_cast hmaxA
    have hdiv : (a : ℚ) / (maxA : ℚ) ≤ 1 := by
      rw [div_le_one hmaxQ]
      exact_mod_cast Nat.le_of_lt (by omega : a < maxA)
    have hdivnn : (0 : ℚ) ≤ (a : ℚ) / (maxA : ℚ) := by positivity
    have hb1 : (a : ℚ) / (maxA : ℚ) * (3 / 10) ≤ 8 / 10 := by nlinarith
    have hstep : (a : ℚ) / (maxA : ℚ) * (3 / 10)
        ≤ ((a : ℚ) + 1) / (maxA : ℚ) * (3 / 10) := by
      gcongr
      linarith
    cases hb : backend a with
    | ok text =>
      cases hp : parse_llm_response text with
      | none => exact absurd (hok a text hb) (by simp [hp])
      | some d =>
        simp only [genFrom, hb, hp, progressOf, List.filterMap_append,
          List.filterMap_cons, List.filterMap_nil, List.cons_append, List.nil_append]
        refine List.chain'_cons.mpr ⟨le_refl _, List.chain'_cons.mpr ⟨hb1, ?_⟩⟩
        refine List.chain'_cons.mpr ⟨by norm_num, List.chain'_singleton _⟩
    | err e =>
      have htail := ih (a + 1) (by omega)
      have hcast : ((a + 1 : Nat) : ℚ) = (a : ℚ) + 1 := by push_cast; ring
      rw [hcast] at htail
      have hlift : List.Chain' (· ≤ ·)
          (((a : ℚ) / (maxA : ℚ) * (3 / 10)) ::
            progressOf (genFrom maxA delay backend (a + 1) n).1) := by
        rcases List.chain'_cons'.mp htail with ⟨hhead, htl⟩
        exact List.chain'_cons'.mpr
          ⟨fun y hy => le_trans hstep (hhead y hy), htl⟩
      cases e <;> by_cases hlt : a < maxA - 1 <;>
        simp only [genFrom, hb, hlt, if_true, if_false, progressOf,
          List.filterMap_append, List.filterMap_cons, List.filterMap_nil,
          List.cons_append, List.nil_append, List.append_nil] <;>
        exact List.chain'_cons.mpr ⟨le_refl _, hlift⟩

/-- C6 amended: the reported progress sequence is monotonically
non-decreasing for every pattern of retryable failures and successes
in which failures happen before a response is received (rate-limit,
connection, or API errors) — that is, whenever every received response
parses.  (A parse failure after a received response breaks
monotonicity, as the counterexample shows.) -/
theorem claim6_amended (maxA : Nat) (delay : ℚ) (backend : Nat → BackendResult)
    (hok : ∀ i t, backend i = .ok t → (parse_llm_response t).isSome) :
    List.Chain' (· ≤ ·)
      (progressOf (generate_presentation_content maxA delay backend).1) :=
  (claim6_aux maxA delay backend hok maxA 0 (by omega)).tail

/-- C6 amended, witness: the always-succeeding backend yields a
non-decreasing progress sequence at the configured policy. -/
theorem claim6_amended_witness :
    List.Chain' (· ≤ ·)
      (progressOf (generate_presentation_content 3 2 okAlways).1) :=
  claim6_amended 3 2 okAlways
    (by intro i t h; injection h with h'; rw [← h']; decide)

/-! ### C7 — schema errors

False as stated: the schema `ValueError("Response is not a JSON
object")` propagates out of `parse_llm_response` and is caught by the
retry loop's `except ValueError` handler, which sleeps and retries —
the invocation does not abort and further backend calls are made. -/

/-- C7 counterexample: a backend whose first call returns the JSON
array `[]` (a schema error) is called a second time and the run
succeeds — not the single aborted call the claim requires. -/
theorem claim7_counterexample :
    countCalls (generate_presentation_content RETRY_ATTEMPTS RETRY_DELAY
        schemaThenOk).1 = 2 ∧
    (generate_presentation_content RETRY_ATTEMPTS RETRY_DELAY schemaThenOk).2
      = some (.obj [(pyOf "slides", .arr []),
          (pyOf "title", .str (pyOf "Generated Presentation"))]) ∧
    (2 : Nat) ≠ 1 := by
  exact ⟨by decide, rfl, by decide⟩

/-- C7 amended: a schema error — the primary parse succeeds but
yields a non-object value — raises a `ValueError` that the invoker
treats exactly like a retryable parse failure: it reports `0.8`,
sleeps the constant delay when attempts remain, and continues with the
next attempt instead of aborting. -/
theorem claim7_amended (maxA : Nat) (delay : ℚ) (backend : Nat → BackendResult)
    (a r : Nat) (t : PyStr) (v : JValue)
    (hb : backend a = .ok t)
    (hjson : jsonLoads (stripWS (cleanFences (stripWS t))) = some v)
    (hv : v.isObj = false) :
    parse_llm_response t = none ∧
    (genFrom maxA delay backend a (r + 1)).1
      = [.progress ((a : ℚ) / (maxA : ℚ) * (3 / 10)), .call, .progress (8 / 10)]
        ++ (if a < maxA - 1 then [Event.sleep delay] else [])
        ++ (genFrom maxA delay backend (a + 1) r).1 ∧
    (genFrom maxA delay backend a (r + 1)).2
      = (genFrom maxA delay backend (a + 1) r).2 := by
  have hp : parse_llm_response t = none := by
    cases v <;> simp_all [parse_llm_response, JValue.isObj]
  refine ⟨hp, ?_, ?_⟩ <;> simp [genFrom, hb, hp]

/-- C7 amended, witness: the concrete schema-error run continues into
attempt 1 after sleeping. -/
theorem claim7_amended_witness :
    parse_llm_response (pyOf "[]") = none ∧
    (genFrom 3 2 schemaThenOk 0 (2 + 1)).1
      = [.progress ((0 : ℚ) / (3 : ℚ) * (3 / 10)), .call, .progress (8 / 10)]
        ++ (if 0 < 3 - 1 then [Event.sleep 2] else [])
        ++ (genFrom 3 2 schemaThenOk 1 2).1 ∧
    (genFrom 3 2 schemaThenOk 0 (2 + 1)).2 = (genFrom 3 2 schemaThenOk 1 2).2 :=
  claim7_amended 3 2 schemaThenOk 0 2 (pyOf "[]") (.arr []) rfl rfl rfl

/-! ### Structural lemmas about the slide cleaning loop -/

/-- A successful cleaning pass equals an order-preserving `filterMap`
of the per-slide step. -/
theorem cleanSlides_eq_filterMap :
    ∀ (xs ys : List JValue), cleanSlides xs = some ys →
      ys = xs.filterMap fun s => (cleanOne s).getD none := by
  intro xs
  induction xs with
  | nil => intro ys h; simpa [cleanSlides] using h.symm
  | cons s t ih =>
    intro ys h
    cases hc : cleanOne s with
    | none => simp [cleanSlides, hc] at h
    | some o =>
      cases o with
      | none =>
        simp only [cleanSlides, hc] at h
        simpa [List.filterMap_cons, hc] using ih ys h
      | some c =>
        simp only [cleanSlides, hc, Option.map_eq_some'] at h
        rcases h with ⟨cs, hcs, rfl⟩
        simp [List.filterMap_cons, hc, ih cs hcs]

/-- A successful cleaning pass means no slide raised a `TypeError`. -/
theorem cleanSlides_ne_none :
    ∀ (xs ys : List JValue), cleanSlides xs = some ys →
      ∀ s ∈ xs, cleanOne s ≠ none := by
  intro xs
  induction xs with
  | nil => intro ys _ s hs; simp at hs
  | cons a t ih =>
    intro ys h s hs
    cases hc : cleanOne a with
    | none => simp [cleanSlides, hc] at h
    | some o =>
      rcases List.mem_cons.mp hs with rfl | hs
      · simp [hc]
      · cases o with
        | none =>
          simp only [cleanSlides, hc] at h
          exact ih ys h s hs
        | some c =>
          simp only [cleanSlides, hc, Option.map_eq_some'] at h
          rcases h with ⟨cs, hcs, rfl⟩
          exact ih cs hcs s hs

/-- Every slide kept by the cleaning loop is a `cleanedRecord`. -/
theorem cleanOne_kept_shape (s0 : JValue) (c : JValue)
    (h : cleanOne s0 = some (some c)) :
    ∃ s cleaned, c = cleanedRecord s cleaned := by
  cases s0 with
  | obj s =>
    simp only [cleanOne] at h
    cases hpy : pyIter (wrapContent ((dictGet s (pyOf "content")).getD (.arr []))) with
    | none => simp [hpy] at h
    | some items =>
      simp only [hpy] at h
      by_cases hcond : (!(items.filter keepContent).isEmpty
          || jIsStr (slideType s) "section") = true
      · rw [if_pos hcond] at h
        exact ⟨s, items.filter keepContent, (Option.some_injective _
          (Option.some_injective _ h)).symm⟩
      · rw [if_neg hcond] at h
        exact absurd h (by simp)
  | null => exact absurd h (by simp [cleanOne])
  | bool b => exact absurd h (by simp [cleanOne])
  | num q => exact absurd h (by simp [cleanOne])
  | str t => exact absurd h (by simp [cleanOne])
  | arr xs => exact absurd h (by simp [cleanOne])

/-- Rendering a cleaned slide record whose type is not `section`
always produces a standard content slide built from the cleaned
content: the cleaned record carries no `left` key, so the two-column
branch is unreachable. -/
theorem renderSlide_cleanedRecord (s : List (PyStr × JValue)) (cleaned : List JValue)
    (hsec : jIsStr (slideType s) "section" = false) :
    renderSlide (cleanedRecord s cleaned)
      = .contentSlide ((dictGet s (pyOf "title")).getD (.str (pyOf "Untitled Slide")))
          (.arr cleaned) ((dictGet s (pyOf "notes")).getD (.str (pyOf ""))) := by
  have hgty : pyGetD (cleanedRecord s cleaned) "type" (.str (pyOf "content"))
      = slideType s := rfl
  have hgtitle : pyGetD (cleanedRecord s cleaned) "title" (.str (pyOf "Untitled Slide"))
      = (dictGet s (pyOf "title")).getD (.str (pyOf "Untitled Slide")) := rfl
  have hgcontent : pyGetD (cleanedRecord s cleaned) "content" (.arr [])
      = .arr cleaned := rfl
  have hgnotes : pyGetD (cleanedRecord s cleaned) "notes" (.str (pyOf ""))
      = (dictGet s (pyOf "notes")).getD (.str (pyOf "")) := rfl
  have hhl : pyHas (cleanedRecord s cleaned) "left" = false := rfl
  simp [renderSlide, hgty, hgtitle, hgcontent, hgnotes, hhl, hsec]

/-- A `cleanedRecord` has no `left` or `right` key, so the two-column
branch of the `generate_pptx` dispatch is never taken for it. -/
theorem renderSlide_cleanedRecord_not_two (s : List (PyStr × JValue))
    (cleaned : List JValue) :
    (renderSlide (cleanedRecord s cleaned)).isTwoColumn = false := by
  cases hsec : jIsStr (slideType s) "section" with
  | true =>
    have hgty : pyGetD (cleanedRecord s cleaned) "type" (.str (pyOf "content"))
        = slideType s := rfl
    simp [renderSlide, hgty, hsec, Rendered.isTwoColumn]
  | false =>
    rw [renderSlide_cleanedRecord s cleaned hsec]
    rfl

/-! ### C8 — downgrade of incomplete comparison slides -/

/-- C8: a slide declared `comparison` with `left` or `right` missing
is dropped when its filtered `content` is empty, and otherwise kept as
a cleaned record that the rendering dispatch turns into a standard
content slide built from that `content` — never a two-column slide. -/
theorem claim8_comparison_downgrade (s : List (PyStr × JValue)) (items : List JValue)
    (hty : jIsStr (slideType s) "comparison" = true)
    (_hmiss : (dictHas s (pyOf "left") && dictHas s (pyOf "right")) = false)
    (hitems : slideContentItems s = some items) :
    (items.filter keepContent = [] → cleanOne (.obj s) = some none) ∧
    (items.filter keepContent ≠ [] →
      cleanOne (.obj s) = some (some (cleanedRecord s (items.filter keepContent))) ∧
      renderSlide (cleanedRecord s (items.filter keepContent))
        = .contentSlide ((dictGet s (pyOf "title")).getD (.str (pyOf "Untitled Slide")))
            (.arr (items.filter keepContent))
            ((dictGet s (pyOf "notes")).getD (.str (pyOf "")))) := by
  simp only [slideContentItems] at hitems
  obtain ⟨cs, hcs⟩ : ∃ cs, slideType s = .str cs ∧ cs = pyOf "comparison" := by
    cases hst : slideType s <;> simp_all [jIsStr]
  have hsec : jIsStr (slideType s) "section" = false := by
    rw [hcs.1, hcs.2]; decide
  constructor
  · intro hempty
    simp [cleanOne, hitems, hempty, hsec]
  · intro hne
    have hcond : (!(items.filter keepContent).isEmpty
        || jIsStr (slideType s) "section") = true := by
      simp [List.isEmpty_iff, hne]
    refine ⟨by simp [cleanOne, hitems, hcond], ?_⟩
    exact renderSlide_cleanedRecord s (items.filter keepContent) hsec

/-- C8 witness: a concrete comparison slide with no `right` and
content `["a"]` is kept and rendered as a content slide. -/
theorem claim8_witness :
    cleanOne (.obj cmpNoRight)
        = some (some (cleanedRecord cmpNoRight
            ([JValue.str (pyOf "a")].filter keepContent))) ∧
    renderSlide (cleanedRecord cmpNoRight ([JValue.str (pyOf "a")].filter keepContent))
      = .contentSlide (.str (pyOf "Untitled Slide"))
          (.arr ([JValue.str (pyOf "a")].filter keepContent)) (.str (pyOf "")) := by
  have h := (claim8_comparison_downgrade cmpNoRight [.str (pyOf "a")]
      (by decide) (by decide) rfl).2
    (by rw [show ([JValue.str (pyOf "a")].filter keepContent)
          = [JValue.str (pyOf "a")] from rfl]
        exact List.cons_ne_nil _ _)
  exact ⟨h.1, h.2.trans rfl⟩

/-! ### C9 — retention invariant after structuring -/

/-- C9: for every input slide list, the structured output is exactly
the order-preserving cleaning of the input; every `section` slide is
retained (even with empty content), and every non-`section` slide
whose filtered content is empty is dropped. -/
theorem claim9_retention (dd : List (PyStr × JValue)) (xs : List JValue) (out : JValue)
    (hs : dictGet dd (pyOf "slides") = some (.arr xs))
    (hv : validate_presentation_data (.obj dd) = some out) :
    ∃ ys, pyGetD out "slides" (.arr []) = .arr ys ∧
      ys = (xs.filterMap fun s => (cleanOne s).getD none) ∧
      (∀ s ∈ xs, ∀ d, s = .obj d → jIsStr (slideType d) "section" = true →
        ∃ c, cleanOne s = some (some c) ∧ c ∈ ys) ∧
      (∀ s ∈ xs, ∀ d items, s = .obj d → jIsStr (slideType d) "section" = false →
        slideContentItems d = some items → items.filter keepContent = [] →
        cleanOne s = some none) := by
  have hts : ¬ pyOf "title" = pyOf "slides" := by decide
  have h1 : dictGet (titleStep dd) (pyOf "slides") = some (.arr xs) := by
    simp only [titleStep]; split
    · rw [dictGet_dictSet_ne _ _ _ _ hts]; exact hs
    · exact hs
  have h2 : slidesStep (titleStep dd) = titleStep dd := by
    simp [slidesStep, dictHas, h1]
  simp only [validate_presentation_data, h2, h1, pyIter] at hv
  cases hc : cleanSlides xs with
  | none => rw [hc] at hv; exact absurd hv (by simp)
  | some cs =>
    rw [hc] at hv
    have hout : out = .obj (dictSet (titleStep dd) (pyOf "slides") (.arr cs)) := by
      exact (Option.some_injective _ hv).symm
    refine ⟨cs, ?_, cleanSlides_eq_filterMap xs cs hc, ?_, ?_⟩
    · rw [hout]
      simp [pyGetD, dictGet_dictSet_self]
    · intro s hsx d hsd hsec
      have hnn := cleanSlides_ne_none xs cs hc s hsx
      cases hone : cleanOne s with
      | none => exact absurd hone hnn
      | some o =>
        cases o with
        | none =>
          subst hsd
          simp only [cleanOne] at hone
          cases hpy : pyIter (wrapContent ((dictGet d (pyOf "content")).getD (.arr []))) with
          | none => simp [hpy] at hone
          | some items =>
            simp only [hpy, hsec, Bool.or_true, if_true] at hone
            exact absurd hone (by simp)
        | some c =>
          refine ⟨c, rfl, ?_⟩
          rw [cleanSlides_eq_filterMap xs cs hc]
          exact List.mem_filterMap.mpr ⟨s, hsx, by simp [hone]⟩
    · intro s hsx d items hsd hsec hitems hempty
      subst hsd
      simp only [slideContentItems] at hitems
      simp [cleanOne, hitems, hempty, hsec]

/-- C9 witness: a deck with an empty section slide and an empty
content slide keeps exactly the section slide. -/
theorem claim9_witness :
    ∃ ys, pyGetD demoOut "slides" (.arr []) = .arr ys ∧
      ys = ([secOnly, emptySlide].filterMap fun s => (cleanOne s).getD none) ∧
      (∀ s ∈ [secOnly, emptySlide], ∀ d, s = .obj d →
        jIsStr (slideType d) "section" = true →
        ∃ c, cleanOne s = some (some c) ∧ c ∈ ys) ∧
      (∀ s ∈ [secOnly, emptySlide], ∀ d items, s = .obj d →
        jIsStr (slideType d) "section" = false →
        slideContentItems d = some items → items.filter keepContent = [] →
        cleanOne s = some none) :=
  claim9_retention [(pyOf "slides", .arr [secOnly, emptySlide])]
    [secOnly, emptySlide] demoOut rfl rfl

/-! ### C10 — shape of validated slides, two-column branch unreachable -/

/-- A successful validation always produces an object whose `slides`
entry is the cleaned list of some input items. -/
theorem validate_out_structure (data out : JValue)
    (hv : validate_presentation_data data = some out) :
    ∃ d items cs, cleanSlides items = some cs ∧
      out = .obj (dictSet (slidesStep (titleStep d)) (pyOf "slides") (.arr cs)) := by
  cases data with
  | obj dd =>
    simp only [validate_presentation_data] at hv
    cases hg : dictGet (slidesStep (titleStep dd)) (pyOf "slides") with
    | none => simp only [hg] at hv; exact Option.noConfusion hv
    | some sv =>
      simp only [hg] at hv
      cases hpy : pyIter sv with
      | none => simp only [hpy] at hv; exact Option.noConfusion hv
      | some items =>
        simp only [hpy] at hv
        cases hc : cleanSlides items with
        | none => simp only [hc] at hv; exact Option.noConfusion hv
        | some cs =>
          simp only [hc] at hv
          exact ⟨dd, items, cs, hc, (Option.some_injective _ hv).symm⟩
  | null => exact absurd hv (by simp [validate_presentation_data])
  | bool b => exact absurd hv (by simp [validate_presentation_data])
  | num q => exact absurd hv (by simp [validate_presentation_data])
  | str t => exact absurd hv (by simp [validate_presentation_data])
  | arr a => exact absurd hv (by simp [validate_presentation_data])

/-- Every slide in a successfully cleaned list is a `cleanedRecord`. -/
theorem cleanSlides_mem_shape :
    ∀ (xs cs : List JValue), cleanSlides xs = some cs →
      ∀ c ∈ cs, ∃ s cleaned, c = cleanedRecord s cleaned := by
  intro xs
  induction xs with
  | nil =>
    intro cs h c hc
    simp only [cleanSlides] at h
    rw [← Option.some_injective _ h] at hc
    simp at hc
  | cons a t ih =>
    intro cs h c hc
    cases hone : cleanOne a with
    | none => simp [cleanSlides, hone] at h
    | some o =>
      cases o with
      | none =>
        simp only [cleanSlides, hone] at h
        exact ih cs h c hc
      | some c0 =>
        simp only [cleanSlides, hone, Option.map_eq_some'] at h
        rcases h with ⟨cs', hcs', rfl⟩
        rcases List.mem_cons.mp hc with rfl | hc'
        · exact cleanOne_kept_shape a c hone
        · exact ih cs' hcs' c hc'

/-- C10: every slide retained by validation is a dict with exactly the
keys `title`, `content`, `notes`, `type` (incoming `left`, `right`,
`left_title`, `right_title` fields are discarded), and consequently
the rendering dispatch never takes the two-column comparison branch
for a validated slide. -/
theorem claim10_validated_shape (data out : JValue) (rendered : List Rendered)
    (hv : validate_presentation_data data = some out)
    (hr : generate_pptx_slides data = some rendered) :
    (∀ s ∈ slidesOf out, keysOf s
        = [pyOf "title", pyOf "content", pyOf "notes", pyOf "type"]) ∧
    ∀ rd ∈ rendered, rd.isTwoColumn = false := by
  have hrs : rendered = (slidesOf out).map renderSlide := by
    simp only [generate_pptx_slides, hv] at hr
    exact (Option.some_injective _ hr).symm
  rcases validate_out_structure data out hv with ⟨d, items, cs, hc, rfl⟩
  have hso : slidesOf (JValue.obj (dictSet (slidesStep (titleStep d)) (pyOf "slides")
      (.arr cs))) = cs := by
    simp [slidesOf, pyGetD, dictGet_dictSet_self]
  rw [hso] at hrs ⊢
  have hshape := cleanSlides_mem_shape items cs hc
  constructor
  · intro s hsx
    rcases hshape s hsx with ⟨s', cleaned, rfl⟩
    rfl
  · intro rd hrd
    rw [hrs] at hrd
    rcases List.mem_map.mp hrd with ⟨s, hsx, rfl⟩
    rcases hshape s hsx with ⟨s', cleaned, rfl⟩
    exact renderSlide_cleanedRecord_not_two s' cleaned

/-- C10 witness: a comparison slide that arrives with `left` and
`right` loses them in validation and is rendered as a plain content
slide. -/
theorem claim10_witness :
    (∀ s ∈ slidesOf demo2Out, keysOf s
        = [pyOf "title", pyOf "content", pyOf "notes", pyOf "type"]) ∧
    ∀ rd ∈ [Rendered.contentSlide (.str (pyOf "Untitled Slide"))
        (.arr [.str (pyOf "c")]) (.str (pyOf ""))], rd.isTwoColumn = false :=
  claim10_validated_shape demoData2 demo2Out
    [Rendered.contentSlide (.str (pyOf "Untitled Slide"))
      (.arr [.str (pyOf "c")]) (.str (pyOf ""))] rfl rfl

end P10
